import Mathlib

/-!
Verification of the elementary cellular automaton engine in
`src/cellular_automaton.js` (class `ElementaryCellularAutomaton`).

The JavaScript code is shallowly embedded below: JavaScript numbers that
are known to hold small non-negative integers become `Nat`, the two
constructor arguments (which may be negative or fractional) become `Int`
resp. `Rat`, JavaScript arrays become `List Nat`, and the fallible
constructor returns `Except`.
-/

/-- Embeds `n.toString(2)` for a natural number, least significant digit
first, with `fuel` bounding the recursion depth (the JavaScript engine
computes the full binary expansion; `fuel = n` suffices, see
`binDigitsAux_length_le`). -/
def binDigitsAux : Nat → Nat → List Nat
  | 0, _ => []
  | fuel + 1, n => if n = 0 then [] else n % 2 :: binDigitsAux fuel (n / 2)

/-- Embeds `n.toString(2)` (digits most significant first, `"0"` for 0),
with each character already converted to its numeric value as by
`.split('').map(Number)`. -/
def toBinaryDigits (n : Nat) : List Nat :=
  if n = 0 then [0] else (binDigitsAux n n).reverse

/-- Embeds `_getRuleArray`:
`ruleNumber.toString(2).padStart(8, '0').split('').map(Number).reverse()`. -/
def _getRuleArray (ruleNumber : Nat) : List Nat :=
  (List.replicate (8 - (toBinaryDigits ruleNumber).length) 0
      ++ toBinaryDigits ruleNumber).reverse

/-- Embeds `_createInitialGeneration`: an all-zero array of length `width`
with `gen[Math.floor(width / 2)] = 1`. -/
def _createInitialGeneration (width : Nat) : List Nat :=
  (List.replicate width 0).set (width / 2) 1

/-- Embeds the constructor's length-adjustment block: when the initial
generation's length differs from `width`, pad it centered with zeros
(`Array(Math.floor(diff / 2)).fill(0)` in front, `diff - padding.length`
zeros behind), or truncate with `slice(0, width)`. -/
def adjustGeneration (width : Nat) (g : List Nat) : List Nat :=
  if g.length ≠ width then
    if g.length < width then
      List.replicate ((width - g.length) / 2) 0 ++ g
        ++ List.replicate ((width - g.length) - (width - g.length) / 2) 0
    else g.take width
  else g

/-- The state owned by one `ElementaryCellularAutomaton` instance:
fields `rule`, `width`, `generation`. -/
structure ElementaryCellularAutomaton where
  rule : List Nat
  width : Nat
  generation : List Nat
deriving DecidableEq

/-- The two constructor failures (`throw new Error(...)` messages
"Rule number must be between 0 and 255." and
"Width must be a positive integer."). -/
inductive ConstructError where
  | invalidRuleNumber
  | invalidWidth
deriving DecidableEq

/-- Embeds the constructor's argument guards exactly as written over
JavaScript numbers (embedded as rationals, since the arguments may be
fractional): `ruleNumber < 0 || ruleNumber > 255` raises
`invalidRuleNumber`, then `width <= 0` raises `invalidWidth`. -/
def validateArgs (ruleNumber width : Rat) : Option ConstructError :=
  if ruleNumber < 0 ∨ ruleNumber > 255 then some .invalidRuleNumber
  else if width ≤ 0 then some .invalidWidth
  else none

/-- Embeds the ternary
`initialGeneration ? [...initialGeneration] : this._createInitialGeneration(width)`:
the supplied generation (copied) if present, otherwise the default
single-seed one. -/
def initialOrDefault (width : Nat) : Option (List Nat) → List Nat
  | some g => g
  | none => _createInitialGeneration width

/-- Embeds `constructor(ruleNumber, width, initialGeneration = null)` for
integer arguments: validate, build the rule array, take the supplied
generation (copied) or the default single-seed one, then adjust its
length. -/
def construct (ruleNumber width : Int) (initialGeneration : Option (List Nat)) :
    Except ConstructError ElementaryCellularAutomaton :=
  if ruleNumber < 0 ∨ ruleNumber > 255 then .error .invalidRuleNumber
  else if width ≤ 0 then .error .invalidWidth
  else
    .ok { rule := _getRuleArray ruleNumber.toNat
          width := width.toNat
          generation :=
            adjustGeneration width.toNat (initialOrDefault width.toNat initialGeneration) }

/-- The body of `nextGeneration`'s loop for cell `i`: read
`left = generation[(i - 1 + width) % width]`, `middle = generation[i]`,
`right = generation[(i + 1) % width]`, form the neighborhood value
`parseInt(`...`, 2) = left*4 + middle*2 + right`, and look up
`rule[7 - neighborhoodIndex]`. Out-of-range reads default to 0 (they never
occur on valid state, see the totality theorem). -/
def nextCell (rule : List Nat) (width : Nat) (generation : List Nat) (i : Nat) : Nat :=
  rule.getD
    (7 - (generation.getD (((i : Int) - 1 + width) % width).toNat 0 * 4
          + generation.getD i 0 * 2
          + generation.getD ((i + 1) % width) 0)) 0

/-- The full new array built by `nextGeneration`'s loop (`nextGen`). -/
def computeNextGen (rule : List Nat) (width : Nat) (generation : List Nat) : List Nat :=
  (List.range width).map (nextCell rule width generation)

/-- Embeds `nextGeneration()`: compute `nextGen`, assign
`this.generation = nextGen`, and return it. The returned list is the
second component. -/
def nextGeneration (ca : ElementaryCellularAutomaton) :
    ElementaryCellularAutomaton × List Nat :=
  let nextGen := computeNextGen ca.rule ca.width ca.generation
  ({ ca with generation := nextGen }, nextGen)

/-- Embeds `getCurrentGeneration()`: `return [...this.generation]`
(a copy of the current generation; as a pure value, the copy equals the
field itself — the aliasing-sensitive view lives in `EngineState` below). -/
def getCurrentGeneration (ca : ElementaryCellularAutomaton) : List Nat :=
  ca.generation

/-- `n` applications of `nextGeneration`, keeping the mutated instance. -/
def stepN (n : Nat) (ca : ElementaryCellularAutomaton) : ElementaryCellularAutomaton :=
  match n with
  | 0 => ca
  | n + 1 => (nextGeneration (stepN n ca)).1

/-!
Reference-level (heap) view of the engine. JavaScript arrays are heap
objects handled by reference: `return this.generation` hands the caller
the engine's own array, while `return [...this.generation]` hands it a
fresh copy. To reason about that distinction we model a heap of arrays
addressed by naturals, with a bump allocator. -/

/-- An `ElementaryCellularAutomaton` instance together with the heap its
arrays live in: the `generation` field holds the address `genAddr`;
`nextAddr` is the next fresh address of the allocator. -/
structure EngineState where
  rule : List Nat
  width : Nat
  genAddr : Nat
  heap : Nat → List Nat
  nextAddr : Nat

/-- The engine's internal current generation, read through its field. -/
def currentGen (s : EngineState) : List Nat := s.heap s.genAddr

/-- Embeds `nextGeneration()` at the reference level: `const nextGen = ...`
allocates a fresh array, `this.generation = nextGen` repoints the field at
it, and `return this.generation` returns that same reference — no copy is
made. -/
def nextGenerationRef (s : EngineState) : EngineState × Nat :=
  ({ s with heap := Function.update s.heap s.nextAddr
              (computeNextGen s.rule s.width (s.heap s.genAddr))
          , genAddr := s.nextAddr
          , nextAddr := s.nextAddr + 1 }, s.nextAddr)

/-- Embeds `getCurrentGeneration()` at the reference level:
`return [...this.generation]` allocates a fresh array holding a copy of
the current generation and returns the fresh reference. -/
def getCurrentGenerationRef (s : EngineState) : EngineState × Nat :=
  ({ s with heap := Function.update s.heap s.nextAddr (s.heap s.genAddr)
          , nextAddr := s.nextAddr + 1 }, s.nextAddr)

/-- A caller mutating the array it received: `arr[i] = v` on the array at
address `a`. -/
def writeCell (s : EngineState) (a i v : Nat) : EngineState :=
  { s with heap := Function.update s.heap a ((s.heap a).set i v) }

/-- A concrete instance: rule 90, width 7, the default single-seed
generation. -/
def sampleCA : ElementaryCellularAutomaton :=
  { rule := _getRuleArray 90, width := 7, generation := [0, 0, 0, 1, 0, 0, 0] }

/-- A concrete freshly-built engine state (rule 90, width 3, generation
`[0, 1, 0]` stored at address 0). -/
def sampleState : EngineState :=
  { rule := _getRuleArray 90
    width := 3
    genAddr := 0
    heap := Function.update (fun _ => []) 0 [0, 1, 0]
    nextAddr := 1 }

/-! Helper lemmas about the embedded operations. -/

lemma binDigitsAux_length_le :
    ∀ (fuel n k : Nat), n < 2 ^ k → (binDigitsAux fuel n).length ≤ k := by
  intro fuel
  induction fuel with
  | zero => intro n k _; simp [binDigitsAux]
  | succ fuel ih =>
    intro n k hn
    by_cases h0 : n = 0
    · simp [binDigitsAux, h0]
    · have hk : k ≠ 0 := by
        rintro rfl
        simp only [pow_zero, Nat.lt_one_iff] at hn
        exact h0 hn
      obtain ⟨k, rfl⟩ := Nat.exists_eq_succ_of_ne_zero hk
      have hdiv : n / 2 < 2 ^ k :=
        Nat.div_lt_of_lt_mul (by rw [pow_succ] at hn; omega)
      simp only [binDigitsAux, h0, if_false, List.length_cons]
      have := ih (n / 2) k hdiv
      omega

lemma binDigitsAux_mem :
    ∀ (fuel n : Nat), ∀ x ∈ binDigitsAux fuel n, x = 0 ∨ x = 1 := by
  intro fuel
  induction fuel with
  | zero => intro n x hx; simp [binDigitsAux] at hx
  | succ fuel ih =>
    intro n x hx
    by_cases h0 : n = 0
    · simp [binDigitsAux, h0] at hx
    · simp only [binDigitsAux, h0, if_false, List.mem_cons] at hx
      rcases hx with rfl | hx
      · exact Nat.mod_two_eq_zero_or_one n
      · exact ih (n / 2) x hx

lemma toBinaryDigits_length_le {n : Nat} (hn : n ≤ 255) :
    (toBinaryDigits n).length ≤ 8 := by
  unfold toBinaryDigits
  split
  · simp
  · rw [List.length_reverse]
    exact binDigitsAux_length_le n n 8 (by omega)

lemma toBinaryDigits_mem {n : Nat} : ∀ x ∈ toBinaryDigits n, x = 0 ∨ x = 1 := by
  intro x hx
  unfold toBinaryDigits at hx
  split at hx
  · simp at hx; omega
  · rw [List.mem_reverse] at hx
    exact binDigitsAux_mem n n x hx

lemma ruleArray_length {n : Nat} (hn : n ≤ 255) : (_getRuleArray n).length = 8 := by
  unfold _getRuleArray
  rw [List.length_reverse, List.length_append, List.length_replicate]
  have := toBinaryDigits_length_le hn
  omega

lemma ruleArray_mem {n : Nat} : ∀ x ∈ _getRuleArray n, x = 0 ∨ x = 1 := by
  intro x hx
  unfold _getRuleArray at hx
  rw [List.mem_reverse, List.mem_append] at hx
  rcases hx with hx | hx
  · left; exact (List.eq_of_mem_replicate hx)
  · exact toBinaryDigits_mem x hx

lemma createInitialGeneration_length (w : Nat) :
    (_createInitialGeneration w).length = w := by
  simp [_createInitialGeneration]

lemma createInitialGeneration_mem (w : Nat) :
    ∀ x ∈ _createInitialGeneration w, x = 0 ∨ x = 1 := by
  intro x hx
  unfold _createInitialGeneration at hx
  rcases List.mem_or_eq_of_mem_set hx with hx | rfl
  · left; exact List.eq_of_mem_replicate hx
  · right; rfl

lemma adjustGeneration_length (w : Nat) (g : List Nat) :
    (adjustGeneration w g).length = w := by
  unfold adjustGeneration
  split
  · split
    · simp only [List.length_append, List.length_replicate]
      omega
    · rw [List.length_take]
      omega
  · omega

lemma adjustGeneration_mem (w : Nat) (g : List Nat)
    (hg : ∀ x ∈ g, x = 0 ∨ x = 1) :
    ∀ x ∈ adjustGeneration w g, x = 0 ∨ x = 1 := by
  intro x hx
  unfold adjustGeneration at hx
  split at hx
  · split at hx
    · rw [List.mem_append, List.mem_append] at hx
      rcases hx with (hx | hx) | hx
      · left; exact List.eq_of_mem_replicate hx
      · exact hg x hx
      · left; exact List.eq_of_mem_replicate hx
    · exact hg x (List.mem_of_mem_take hx)
  · exact hg x hx

lemma construct_ok {r w : Int} {g? : Option (List Nat)}
    {ca : ElementaryCellularAutomaton} (h : construct r w g? = .ok ca) :
    0 ≤ r ∧ r ≤ 255 ∧ 0 < w ∧
      ca = { rule := _getRuleArray r.toNat
             width := w.toNat
             generation :=
               adjustGeneration w.toNat (initialOrDefault w.toNat g?) } := by
  unfold construct at h
  by_cases h1 : r < 0 ∨ r > 255
  · rw [if_pos h1] at h
    exact absurd h (by simp)
  rw [if_neg h1] at h
  by_cases h2 : w ≤ 0
  · rw [if_pos h2] at h
    exact absurd h (by simp)
  rw [if_neg h2] at h
  simp only [Except.ok.injEq] at h
  exact ⟨by omega, by omega, by omega, h.symm⟩

lemma computeNextGen_length (rule : List Nat) (w : Nat) (g : List Nat) :
    (computeNextGen rule w g).length = w := by
  simp [computeNextGen]

lemma computeNextGen_getElem (rule : List Nat) (w : Nat) (g : List Nat)
    (i : Nat) (h : i < (computeNextGen rule w g).length) :
    (computeNextGen rule w g)[i] = nextCell rule w g i := by
  simp [computeNextGen]

lemma getD_zero_or_mem (l : List Nat) (n : Nat) :
    l.getD n 0 = 0 ∨ l.getD n 0 ∈ l := by
  by_cases h : n < l.length
  · right
    rw [List.getD_eq_getElem _ _ h]
    exact List.getElem_mem h
  · left
    exact List.getD_eq_default _ _ (by omega)

lemma nextCell_zero_or_one (rule : List Nat) (w : Nat) (g : List Nat) (i : Nat)
    (hr : ∀ x ∈ rule, x = 0 ∨ x = 1) :
    nextCell rule w g i = 0 ∨ nextCell rule w g i = 1 := by
  unfold nextCell
  rcases getD_zero_or_mem rule
      (7 - (g.getD (((i : Int) - 1 + w) % w).toNat 0 * 4
            + g.getD i 0 * 2 + g.getD ((i + 1) % w) 0)) with h | h
  · left; exact h
  · exact hr _ h

lemma leftIdx_eq (i w : Nat) (hw : 0 < w) :
    (((i : Int) - 1 + w) % w).toNat = (i + w - 1) % w := by
  have h1 : ((i : Int) - 1 + w) = ((i + w - 1 : Nat) : Int) := by omega
  rw [h1, ← Int.natCast_mod, Int.toNat_natCast]

lemma leftIdx_lt (i w : Nat) (hw : 0 < w) :
    (((i : Int) - 1 + w) % w).toNat < w := by
  rw [leftIdx_eq i w hw]
  exact Nat.mod_lt _ hw

lemma rotate_getD (g : List Nat) (k w j : Nat) (hlen : g.length = w) (hj : j < w) :
    (g.rotate k).getD j 0 = g.getD ((j + k) % w) 0 := by
  subst hlen
  have h1 : j < (g.rotate k).length := by rwa [List.length_rotate]
  rw [List.getD_eq_getElem _ _ h1, List.getElem_rotate,
    List.getD_eq_getElem _ _ (Nat.mod_lt _ (by omega))]

lemma nextCell_rotate (rule : List Nat) (w : Nat) (g : List Nat) (k i : Nat)
    (hw : 0 < w) (hlen : g.length = w) (hi : i < w) :
    nextCell rule w (g.rotate k) i = nextCell rule w g ((i + k) % w) := by
  have hrot : (g.rotate k).length = w := by rw [List.length_rotate, hlen]
  unfold nextCell
  rw [leftIdx_eq i w hw, leftIdx_eq ((i + k) % w) w hw]
  rw [rotate_getD g k w _ hlen (Nat.mod_lt _ hw),
    rotate_getD g k w i hlen hi,
    rotate_getD g k w _ hlen (Nat.mod_lt _ hw)]
  have eL : ((i + w - 1) % w + k) % w = ((i + k) % w + w - 1) % w := by
    have e1 : i + w - 1 = i + (w - 1) := by omega
    have e2 : (i + k) % w + w - 1 = (i + k) % w + (w - 1) := by omega
    rw [e1, e2, Nat.mod_add_mod, Nat.mod_add_mod]
    congr 1
    omega
  have eR : ((i + 1) % w + k) % w = ((i + k) % w + 1) % w := by
    rw [Nat.mod_add_mod, Nat.mod_add_mod]
    congr 1
    omega
  rw [eL, eR]

lemma computeNextGen_rotate (rule : List Nat) (w : Nat) (g : List Nat) (k : Nat)
    (hlen : g.length = w) :
    computeNextGen rule w (g.rotate k) = (computeNextGen rule w g).rotate k := by
  rcases Nat.eq_zero_or_pos w with rfl | hw
  · simp [computeNextGen]
  · apply List.ext_getElem
    · rw [computeNextGen_length, List.length_rotate, computeNextGen_length]
    · intro i h1 h2
      have hi : i < w := by rwa [computeNextGen_length] at h1
      have hmod : (i + k) % (computeNextGen rule w g).length
          < (computeNextGen rule w g).length := by
        rw [computeNextGen_length]
        exact Nat.mod_lt _ hw
      rw [computeNextGen_getElem _ _ _ _ h1, List.getElem_rotate,
        computeNextGen_getElem _ _ _ _ hmod, computeNextGen_length]
      exact nextCell_rotate rule w g k i hw hlen hi

lemma computeNextGen_zero_or_one (rule : List Nat) (w : Nat) (g : List Nat)
    (hr : ∀ x ∈ rule, x = 0 ∨ x = 1) :
    ∀ x ∈ computeNextGen rule w g, x = 0 ∨ x = 1 := by
  intro x hx
  unfold computeNextGen at hx
  rw [List.mem_map] at hx
  obtain ⟨i, -, rfl⟩ := hx
  exact nextCell_zero_or_one rule w g i hr

/-! Theorems settling the individual claims. -/

/-- Claim C1 (refuted, code bug): the rule table and step lookup do not
realize the Wolfram convention. With ruleNumber 110, width 3 and
generation `[0, 1, 1]`, cell 1 has neighborhood (left, middle, right) =
(0, 1, 1), triple value v = 3; the claim demands bit 3 of 110, which is 1,
but the engine produces 0 there (the whole step yields `[1, 0, 1]`): the
reversed table `rule[p] = bit p` composed with the `rule[7 - v]` lookup
yields bit (7 − v) instead of bit v. -/
theorem ruleTable_misindexed_on_rule110 :
    computeNextGen (_getRuleArray 110) 3 [0, 1, 1] = [1, 0, 1]
    ∧ 110 / 2 ^ 3 % 2 = 1
    ∧ (_getRuleArray 110).getD (7 - 3) 0 = 110 / 2 ^ (7 - 3) % 2 := by decide

/-- Claim C2: an automaton constructed with ruleNumber 90 and width 7
whose generation is `[0,0,0,1,0,0,0]` produces `[0,0,1,0,1,0,0]` from a
single `nextGeneration` call. -/
theorem rule90_width7_single_step :
    (construct 90 7 (some [0, 0, 0, 1, 0, 0, 0])).map (fun ca => (nextGeneration ca).2)
      = .ok [0, 0, 1, 0, 1, 0, 0] := rfl

/-- Claim C3 (counterexample): mutating the array returned by
`nextGeneration` does change the engine's internal current generation.
On the sample rule-90 width-3 engine the step leaves the engine holding
`[1, 0, 1]`; writing 0 into index 0 of the returned array changes the
engine's current generation to `[0, 0, 1]`. -/
theorem nextGeneration_return_attached_cex :
    currentGen (writeCell (nextGenerationRef sampleState).1
        (nextGenerationRef sampleState).2 0 0)
      ≠ currentGen (nextGenerationRef sampleState).1 := by decide

/-- Claim C3 (amended): `getCurrentGeneration` returns a detached copy —
it leaves the engine's current generation and its address unchanged, the
returned array equals the current generation but lives at a fresh address,
and mutating it never changes the engine's current generation.
`nextGeneration`, by contrast, returns the engine's internal array itself:
the returned reference is exactly the address the engine's generation
field holds after the call, so mutating it mutates the engine. -/
theorem getCurrentGeneration_detached (s : EngineState) (i v : Nat)
    (h : s.genAddr < s.nextAddr) :
    currentGen (getCurrentGenerationRef s).1 = currentGen s
    ∧ (getCurrentGenerationRef s).1.genAddr = s.genAddr
    ∧ (getCurrentGenerationRef s).1.heap (getCurrentGenerationRef s).2 = currentGen s
    ∧ currentGen (writeCell (getCurrentGenerationRef s).1
        (getCurrentGenerationRef s).2 i v) = currentGen s
    ∧ (nextGenerationRef s).2 = (nextGenerationRef s).1.genAddr := by
  have hne : s.genAddr ≠ s.nextAddr := by omega
  refine ⟨?_, rfl, ?_, ?_, rfl⟩
  · show Function.update s.heap s.nextAddr (s.heap s.genAddr) s.genAddr = s.heap s.genAddr
    exact Function.update_noteq hne _ _
  · show Function.update s.heap s.nextAddr (s.heap s.genAddr) s.nextAddr = s.heap s.genAddr
    exact Function.update_same _ _ _
  · show Function.update (Function.update s.heap s.nextAddr (s.heap s.genAddr)) s.nextAddr _
        s.genAddr = s.heap s.genAddr
    rw [Function.update_noteq hne _ _]
    exact Function.update_noteq hne _ _

/-- Witness for the amended claim C3 at the sample engine state. -/
theorem getCurrentGeneration_detached_witness :
    sampleState.genAddr < sampleState.nextAddr
    ∧ currentGen (getCurrentGenerationRef sampleState).1 = currentGen sampleState
    ∧ currentGen (writeCell (getCurrentGenerationRef sampleState).1
        (getCurrentGenerationRef sampleState).2 0 5) = currentGen sampleState :=
  ⟨by decide, (getCurrentGeneration_detached sampleState 0 5 (by decide)).1,
    (getCurrentGeneration_detached sampleState 0 5 (by decide)).2.2.2.1⟩

/-- Claim C4 (refuted, code bug): the guards reject rule numbers outside
[0, 255] with `invalidRuleNumber` and non-positive widths with
`invalidWidth`, but the width guard is only `width <= 0`, so the
non-integer width 5/2 = 2.5 passes validation instead of failing with
`invalidWidth` as claimed (and as the error message
"Width must be a positive integer." announces). -/
theorem width_guard_accepts_noninteger :
    validateArgs 90 (5 / 2) = none
    ∧ validateArgs (-1) 10 = some .invalidRuleNumber
    ∧ validateArgs 256 10 = some .invalidRuleNumber
    ∧ validateArgs 90 0 = some .invalidWidth
    ∧ validateArgs 90 (-5) = some .invalidWidth := by
  refine ⟨?_, ?_, ?_, ?_, ?_⟩ <;> norm_num [validateArgs]

/-- Claim C5: for every cell index i below the width, the value
`nextGeneration` computes for cell i is the rule lookup at the
neighborhood read from the pre-step generation with periodic wraparound —
left = generation[(i − 1 + width) mod width], middle = generation[i],
right = generation[(i + 1) mod width] — so no cell's next state observes
another cell's already-updated next state; and the new sequence replaces
the current generation wholesale while rule and width are untouched. -/
theorem nextGeneration_neighborhood_snapshot (ca : ElementaryCellularAutomaton)
    (i : Nat) (hi : i < ca.width) :
    (nextGeneration ca).2.getD i 0
      = ca.rule.getD
          (7 - (ca.generation.getD (((i : Int) - 1 + ca.width) % ca.width).toNat 0 * 4
                + ca.generation.getD i 0 * 2
                + ca.generation.getD ((i + 1) % ca.width) 0)) 0
    ∧ (nextGeneration ca).1
        = { rule := ca.rule, width := ca.width, generation := (nextGeneration ca).2 } := by
  constructor
  · have h1 : i < (computeNextGen ca.rule ca.width ca.generation).length := by
      rw [computeNextGen_length]
      exact hi
    show (computeNextGen ca.rule ca.width ca.generation).getD i 0 = _
    rw [List.getD_eq_getElem _ _ h1, computeNextGen_getElem _ _ _ _ h1]
    rfl
  · rfl

/-- Witness for claim C5 at rule 90, width 3, generation [0, 1, 0],
cell 0. -/
theorem nextGeneration_neighborhood_snapshot_witness :
    (0 : Nat) < 3
    ∧ (nextGeneration ⟨_getRuleArray 90, 3, [0, 1, 0]⟩).2.getD 0 0
        = (_getRuleArray 90).getD
            (7 - ([0, 1, 0].getD (((0 : Nat) : Int) - 1 + (3 : Nat) % (3 : Nat)).toNat 0 * 4
                  + [0, 1, 0].getD 0 0 * 2
                  + [0, 1, 0].getD ((0 + 1) % 3) 0)) 0 := by
  refine ⟨by decide, ?_⟩
  have h := (nextGeneration_neighborhood_snapshot ⟨_getRuleArray 90, 3, [0, 1, 0]⟩ 0
    (by decide)).1
  exact h

/-- Claim C6: a supplied initial generation shorter than the width is
centered between floor(diff/2) leading zeros and diff − floor(diff/2)
trailing zeros, a longer one is truncated to the first `width` values, one
of exactly the right length is kept verbatim; in particular rule 90,
width 7, `[1, 1]` yields `[0, 0, 1, 1, 0, 0, 0]`. -/
theorem construct_centering_truncation (r w : Int) (g : List Nat)
    (ca : ElementaryCellularAutomaton) (h : construct r w (some g) = .ok ca) :
    (g.length < w.toNat →
      ca.generation
        = List.replicate ((w.toNat - g.length) / 2) 0 ++ g
            ++ List.replicate ((w.toNat - g.length) - (w.toNat - g.length) / 2) 0)
    ∧ (w.toNat < g.length → ca.generation = g.take w.toNat)
    ∧ (g.length = w.toNat → ca.generation = g)
    ∧ (construct 90 7 (some [1, 1])).map (fun c => c.generation)
        = .ok [0, 0, 1, 1, 0, 0, 0] := by
  obtain ⟨-, -, -, rfl⟩ := construct_ok h
  refine ⟨?_, ?_, ?_, rfl⟩
  · intro hlen
    show adjustGeneration w.toNat g = _
    unfold adjustGeneration
    rw [if_pos (by omega : g.length ≠ w.toNat), if_pos hlen]
  · intro hlen
    show adjustGeneration w.toNat g = _
    unfold adjustGeneration
    rw [if_pos (by omega : g.length ≠ w.toNat), if_neg (by omega : ¬g.length < w.toNat)]
  · intro hlen
    show adjustGeneration w.toNat g = _
    unfold adjustGeneration
    rw [if_neg (by omega : ¬g.length ≠ w.toNat)]

/-- Witness for claim C6: rule 90, width 7, supplied generation [1, 1]. -/
theorem construct_centering_truncation_witness :
    [(1 : Nat), 1].length < (7 : Int).toNat
    ∧ (construct 90 7 (some [1, 1])).map (fun c => c.generation)
        = .ok [0, 0, 1, 1, 0, 0, 0]
    ∧ [(0 : Nat), 0, 1, 1, 0, 0, 0]
        = List.replicate (((7 : Int).toNat - [(1 : Nat), 1].length) / 2) 0 ++ [1, 1]
            ++ List.replicate (((7 : Int).toNat - [(1 : Nat), 1].length)
                - ((7 : Int).toNat - [(1 : Nat), 1].length) / 2) 0 := by
  refine ⟨by decide, rfl, ?_⟩
  have h := (construct_centering_truncation 90 7 [1, 1] _ rfl).1 (by decide)
  exact h

/-- Claim C7: for a validly constructed automaton whose supplied initial
values are bits, every state reachable by repeated `nextGeneration` calls
keeps the width, a generation of length exactly that width with every
entry 0 or 1, and the original rule table, which has exactly 8 entries,
each 0 or 1. -/
theorem reachable_state_invariants (r w : Int) (g? : Option (List Nat))
    (ca : ElementaryCellularAutomaton) (hc : construct r w g? = .ok ca)
    (hv : ∀ g, g? = some g → ∀ x ∈ g, x = 0 ∨ x = 1) (n : Nat) :
    (stepN n ca).width = ca.width
    ∧ (stepN n ca).generation.length = ca.width
    ∧ (∀ x ∈ (stepN n ca).generation, x = 0 ∨ x = 1)
    ∧ (stepN n ca).rule = ca.rule
    ∧ ca.rule.length = 8
    ∧ ∀ x ∈ ca.rule, x = 0 ∨ x = 1 := by
  obtain ⟨hr0, hr255, hw, rfl⟩ := construct_ok hc
  have hrule_len : (_getRuleArray r.toNat).length = 8 := ruleArray_length (by omega)
  have hrule_mem : ∀ x ∈ _getRuleArray r.toNat, x = 0 ∨ x = 1 := fun x hx => ruleArray_mem x hx
  have hgen_len : (adjustGeneration w.toNat (initialOrDefault w.toNat g?)).length
      = w.toNat := adjustGeneration_length _ _
  have hgen_mem : ∀ x ∈ adjustGeneration w.toNat (initialOrDefault w.toNat g?),
      x = 0 ∨ x = 1 := by
    apply adjustGeneration_mem
    cases g? with
    | none => exact createInitialGeneration_mem _
    | some g => exact hv g rfl
  induction n with
  | zero => exact ⟨rfl, hgen_len, hgen_mem, rfl, hrule_len, hrule_mem⟩
  | succ n ih =>
    obtain ⟨ih1, ih2, ih3, ih4, -, -⟩ := ih
    refine ⟨?_, ?_, ?_, ?_, hrule_len, hrule_mem⟩
    · exact ih1
    · show (computeNextGen (stepN n _).rule (stepN n _).width (stepN n _).generation).length = _
      rw [computeNextGen_length]
      exact ih1
    · show ∀ x ∈ computeNextGen (stepN n _).rule (stepN n _).width (stepN n _).generation,
        x = 0 ∨ x = 1
      apply computeNextGen_zero_or_one
      rw [ih4]
      exact hrule_mem
    · exact ih4

/-- Witness for claim C7: rule 90, width 7, default seed, two steps. -/
theorem reachable_state_invariants_witness :
    construct 90 7 none = .ok sampleCA
    ∧ (stepN 2 sampleCA).generation.length = sampleCA.width := by
  refine ⟨rfl, ?_⟩
  exact (reachable_state_invariants 90 7 none sampleCA rfl (by intro g hg; cases hg) 2).2.1

/-- Claim C8: constructing with the initial generation omitted yields a
zero-filled generation of the instance's width with a single live cell at
index floor(width / 2). -/
theorem construct_default_seed (r w : Int) (ca : ElementaryCellularAutomaton)
    (h : construct r w none = .ok ca) :
    ca.generation.length = ca.width
    ∧ ∀ i < ca.width, ca.generation.getD i 0 = if i = ca.width / 2 then 1 else 0 := by
  obtain ⟨-, -, hw, rfl⟩ := construct_ok h
  constructor
  · exact adjustGeneration_length _ _
  · intro i hi
    show (adjustGeneration w.toNat (_createInitialGeneration w.toNat)).getD i 0 = _
    have e2 : adjustGeneration w.toNat (_createInitialGeneration w.toNat)
        = _createInitialGeneration w.toNat := by
      unfold adjustGeneration
      rw [if_neg]
      simp [createInitialGeneration_length]
    rw [e2]
    unfold _createInitialGeneration
    have hlen : i < ((List.replicate w.toNat (0 : Nat)).set (w.toNat / 2) 1).length := by
      simpa using hi
    rw [List.getD_eq_getElem _ _ hlen]
    by_cases hij : i = w.toNat / 2
    · subst hij
      rw [if_pos rfl]
      exact List.getElem_set_self hlen
    · rw [if_neg hij, List.getElem_set_ne (fun hh => hij hh.symm) _,
        List.getElem_replicate _]

/-- Witness for claim C8: rule 90, width 7 (live cell at index 3). -/
theorem construct_default_seed_witness :
    sampleCA.generation.length = sampleCA.width
    ∧ sampleCA.generation.getD 3 0 = 1 := by
  have h := construct_default_seed 90 7 sampleCA rfl
  refine ⟨h.1, ?_⟩
  have h2 := h.2 3 (by decide)
  simpa using h2

/-- Claim C9: on a validly constructed instance (generation of length
width, positive width, rule table of 8 bits), `nextGeneration` and
`getCurrentGeneration` are total: every array index read in the step —
the wrapped left neighbor, the cell itself, the wrapped right neighbor,
and the rule-table index `7 - neighborhoodIndex` — is in bounds, and both
operations return well-formed sequences (the step a length-`width`
sequence of bits, the accessor the current generation itself). -/
theorem step_and_accessor_total (ca : ElementaryCellularAutomaton)
    (hw : 0 < ca.width) (hlen : ca.generation.length = ca.width)
    (hrl : ca.rule.length = 8) (hrv : ∀ x ∈ ca.rule, x = 0 ∨ x = 1) :
    (∀ i < ca.width,
      (((i : Int) - 1 + ca.width) % ca.width).toNat < ca.generation.length
      ∧ i < ca.generation.length
      ∧ (i + 1) % ca.width < ca.generation.length
      ∧ 7 - (ca.generation.getD (((i : Int) - 1 + ca.width) % ca.width).toNat 0 * 4
             + ca.generation.getD i 0 * 2
             + ca.generation.getD ((i + 1) % ca.width) 0) < ca.rule.length)
    ∧ (nextGeneration ca).2.length = ca.width
    ∧ (∀ x ∈ (nextGeneration ca).2, x = 0 ∨ x = 1)
    ∧ getCurrentGeneration ca = ca.generation := by
  refine ⟨?_, ?_, ?_, rfl⟩
  · intro i hi
    refine ⟨?_, ?_, ?_, ?_⟩
    · rw [hlen]
      exact leftIdx_lt i ca.width hw
    · rw [hlen]
      exact hi
    · rw [hlen]
      exact Nat.mod_lt _ hw
    · rw [hrl]
      omega
  · exact computeNextGen_length _ _ _
  · exact computeNextGen_zero_or_one _ _ _ hrv

/-- Witness for claim C9 at the concrete rule 90 width 7 instance. -/
theorem step_and_accessor_total_witness :
    (nextGeneration sampleCA).2.length = sampleCA.width
    ∧ getCurrentGeneration sampleCA = sampleCA.generation := by
  have h := step_and_accessor_total sampleCA (by decide) rfl (by decide) (by decide)
  exact ⟨h.2.1, h.2.2.2⟩

/-- Claim C10: the update commutes with cyclic rotation of the ring — for
any rule number in [0, 255], any width, any bit generation of that length
and any rotation amount k, stepping the rotated generation gives the
rotation of the stepped one. -/
theorem nextGeneration_shift_equivariant (ruleNumber width k : Nat) (g : List Nat)
    (_hr : ruleNumber ≤ 255) (hlen : g.length = width)
    (_hvals : ∀ x ∈ g, x = 0 ∨ x = 1) :
    (nextGeneration ⟨_getRuleArray ruleNumber, width, g.rotate k⟩).2
      = ((nextGeneration ⟨_getRuleArray ruleNumber, width, g⟩).2).rotate k :=
  computeNextGen_rotate _ width g k hlen

/-- Witness for claim C10: rule 110, width 3, rotation 1,
generation [0, 1, 1]. -/
theorem nextGeneration_shift_equivariant_witness :
    (110 : Nat) ≤ 255
    ∧ [(0 : Nat), 1, 1].length = 3
    ∧ (nextGeneration ⟨_getRuleArray 110, 3, [0, 1, 1].rotate 1⟩).2
        = ((nextGeneration ⟨_getRuleArray 110, 3, [0, 1, 1]⟩).2).rotate 1 :=
  ⟨by decide, rfl,
    nextGeneration_shift_equivariant 110 3 1 [0, 1, 1] (by decide) rfl (by decide)⟩

